import Mathlib

/-!
Shallow embedding of the hashindex-rs pipeline (src/hasher_wrapper.rs,
src/lib.rs, src/main.rs) and proofs about it.

Strings are Lean strings (logically lists of characters); byte sequences are
lists of naturals taken modulo 256 where a byte value matters; 64-bit machine
arithmetic is modelled on Nat with explicit reductions modulo 2^64.
-/

namespace Hashindex

/-! ## Fixed-width uppercase hexadecimal rendering

Models the Rust format strings in hasher_wrapper.rs line 56 and 57:
format with the X conversion, zero-padded to a minimum width of 16
(respectively 32) characters. -/

/-- Uppercase hexadecimal digit for a value below 16 (other inputs are never
used; they map to the digit 0). -/
def hexDigitChar (n : Nat) : Char :=
  if n < 10 then Char.ofNat (48 + n) else if n < 16 then Char.ofNat (55 + n) else '0'

/-- Hexadecimal digits of a natural number, least significant first. -/
def toHexRev (n : Nat) : List Char :=
  if h : n = 0 then []
  else hexDigitChar (n % 16) :: toHexRev (n / 16)
termination_by n
decreasing_by exact Nat.div_lt_self (Nat.pos_of_ne_zero h) (by norm_num)

/-- Hexadecimal digits of a natural number, most significant first; the
number zero renders as the single digit 0, as in Rust's formatter. -/
def toHexDigits (n : Nat) : List Char :=
  if n = 0 then ['0'] else (toHexRev n).reverse

/-- Zero-padded uppercase hexadecimal rendering with minimum width w,
the semantics of Rust's 0-padded X format conversion. -/
def fmtHexPad (w n : Nat) : String :=
  String.mk (List.replicate (w - (toHexDigits n).length) '0' ++ toHexDigits n)

/-- Characters that may appear in an uppercase hexadecimal rendering. -/
def isHexUpper (c : Char) : Bool :=
  ['0', '1', '2', '3', '4', '5', '6', '7', '8', '9',
   'A', 'B', 'C', 'D', 'E', 'F'].contains c

/-! ## The XXH64 digest

Modelled from the spec: the actual hashing is performed by the external
xxhash_rust crate, whose sources are not part of this repository.  The crate's
Xxh64 streamer computes, for the concatenation of all byte chunks fed to it,
the reference XXH64 digest of that byte sequence (chunking never affects the
outcome); we therefore model the streaming state by the byte sequence absorbed
so far and give the reference XXH64 function below as a pure Lean function.
All 64-bit operations reduce modulo 2^64. -/

def M64 : Nat := 18446744073709551616

def P64_1 : Nat := 11400714785074694791
def P64_2 : Nat := 14029467366897019727
def P64_3 : Nat := 1609587929392839161
def P64_4 : Nat := 9650029242287828579
def P64_5 : Nat := 2870177450012600261

/-- Wrapping 64-bit addition. -/
def wadd (a b : Nat) : Nat := (a + b) % M64

/-- Wrapping 64-bit multiplication. -/
def wmul (a b : Nat) : Nat := (a * b) % M64

/-- 64-bit exclusive or (reduced modulo 2^64 to keep the embedding explicit). -/
def wxor (a b : Nat) : Nat := (a ^^^ b) % M64

/-- 64-bit left rotation. -/
def rotl64 (x n : Nat) : Nat :=
  (((x % M64) <<< n) ||| ((x % M64) >>> (64 - n))) % M64

/-- One XXH64 accumulator round. -/
def xxh64_round (acc input : Nat) : Nat :=
  wmul (rotl64 (wadd acc (wmul input P64_2)) 31) P64_1

/-- XXH64 merge round used when folding the four stripe accumulators. -/
def xxh64_merge_round (acc v : Nat) : Nat :=
  wadd (wmul (wxor acc (xxh64_round 0 v)) P64_1) P64_4

/-- Little-endian integer value of a byte list (each entry reduced mod 256). -/
def readLE (bs : List Nat) : Nat :=
  bs.foldr (fun b acc => (b % 256) + 256 * acc) 0

/-- Consume 32-byte stripes, updating the four accumulators; returns the final
accumulators together with the unconsumed tail of fewer than 32 bytes. -/
def xxh64_stripes (v1 v2 v3 v4 : Nat) (bs : List Nat) :
    (Nat × Nat × Nat × Nat) × List Nat :=
  if h : 32 ≤ bs.length then
    xxh64_stripes
      (xxh64_round v1 (readLE (bs.take 8)))
      (xxh64_round v2 (readLE ((bs.drop 8).take 8)))
      (xxh64_round v3 (readLE ((bs.drop 16).take 8)))
      (xxh64_round v4 (readLE ((bs.drop 24).take 8)))
      (bs.drop 32)
  else ((v1, v2, v3, v4), bs)
termination_by bs.length
decreasing_by simp only [List.length_drop]; omega

/-- Finalization loop over remaining 8-byte words. -/
def xxh64_tail8 (h : Nat) (bs : List Nat) : Nat × List Nat :=
  if hl : 8 ≤ bs.length then
    xxh64_tail8
      (wadd (wmul (rotl64 (wxor h (xxh64_round 0 (readLE (bs.take 8)))) 27) P64_1) P64_4)
      (bs.drop 8)
  else (h, bs)
termination_by bs.length
decreasing_by simp only [List.length_drop]; omega

/-- Finalization loop over remaining 4-byte words. -/
def xxh64_tail4 (h : Nat) (bs : List Nat) : Nat × List Nat :=
  if hl : 4 ≤ bs.length then
    xxh64_tail4
      (wadd (wmul (rotl64 (wxor h (wmul (readLE (bs.take 4)) P64_1)) 23) P64_2) P64_3)
      (bs.drop 4)
  else (h, bs)
termination_by bs.length
decreasing_by simp only [List.length_drop]; omega

/-- Finalization loop over remaining single bytes. -/
def xxh64_tail1 (h : Nat) (bs : List Nat) : Nat :=
  match bs with
  | [] => h
  | b :: rest => xxh64_tail1 (wmul (rotl64 (wxor h (wmul (b % 256) P64_5)) 11) P64_1) rest

/-- Final avalanche mix of XXH64. -/
def xxh64_avalanche (h : Nat) : Nat :=
  let h1 := wxor h (h >>> 33)
  let h2 := wmul h1 P64_2
  let h3 := wxor h2 (h2 >>> 29)
  let h4 := wmul h3 P64_3
  wxor h4 (h4 >>> 32)

/-- The XXH64 digest of a byte sequence with the given seed (the repository
always seeds with 0, hasher_wrapper.rs line 37).  The final reduction modulo
2^64 embeds the u64 return type. -/
def xxh64 (seed : Nat) (bs : List Nat) : Nat :=
  let s := seed % M64
  let step1 :=
    if 32 ≤ bs.length then
      let r := xxh64_stripes (wadd (wadd s P64_1) P64_2) (wadd s P64_2) s
        ((s + M64 - P64_1) % M64) bs
      let v1 := r.1.1
      let v2 := r.1.2.1
      let v3 := r.1.2.2.1
      let v4 := r.1.2.2.2
      let h0 := wadd (wadd (wadd (rotl64 v1 1) (rotl64 v2 7)) (rotl64 v3 12)) (rotl64 v4 18)
      let h1 := xxh64_merge_round h0 v1
      let h2 := xxh64_merge_round h1 v2
      let h3 := xxh64_merge_round h2 v3
      (xxh64_merge_round h3 v4, r.2)
    else (wadd s P64_5, bs)
  let h := wadd step1.1 bs.length
  let t8 := xxh64_tail8 h step1.2
  let t4 := xxh64_tail4 t8.1 t8.2
  xxh64_avalanche (xxh64_tail1 t4.1 t4.2) % M64

def M128 : Nat := 340282366920938463463374607431768211456

/-- Modelled from the spec: the 128-bit xxh3 digest is computed by the
external xxhash_rust crate, whose sources are not part of this repository.
The spec constrains it only to be a non-cryptographic streaming digest of the
whole byte sequence with a 128-bit native output, so we model it as a fixed
total function of the absorbed byte sequence into the range below 2^128 (none
of the verified claims depends on the concrete digest values). -/
def xxh3_digest128 (bs : List Nat) : Nat :=
  (bs.foldl (fun a b => a * 257 + b % 256 + 1) bs.length) % M128

/-! ## HasherWrapper (src/hasher_wrapper.rs lines 9-60)

The enum wrapper over the two crate hashers.  Per the crate contract recorded
above, a streaming hasher is modelled by the byte sequence it has absorbed. -/

/-- Enum wrapper over the supported streaming hashers
(hasher_wrapper.rs lines 9-14). -/
inductive HasherWrapper : Type where
  | Xxh64 (fed : List Nat)
  | Xxh3 (fed : List Nat)
deriving DecidableEq, Repr

/-- Constructor for the Xxh64 hasher, seed 0 (hasher_wrapper.rs lines 36-38). -/
def new_xxh64 : HasherWrapper := HasherWrapper.Xxh64 []

/-- Constructor for the Xxh3 hasher (hasher_wrapper.rs lines 41-43). -/
def new_xxh3 : HasherWrapper := HasherWrapper.Xxh3 []

/-- Fold one chunk of bytes into the running state
(hasher_wrapper.rs lines 47-52); both variants delegate to the inner hasher,
which absorbs the chunk at the end of its stream. -/
def HasherWrapper.update : HasherWrapper → List Nat → HasherWrapper
  | HasherWrapper.Xxh64 fed, data => HasherWrapper.Xxh64 (fed ++ data)
  | HasherWrapper.Xxh3 fed, data => HasherWrapper.Xxh3 (fed ++ data)

/-- Produce the digest string (hasher_wrapper.rs lines 54-59): the 64-bit
digest formatted 016X, the 128-bit digest formatted 032X. -/
def HasherWrapper.finish : HasherWrapper → String
  | HasherWrapper.Xxh64 fed => fmtHexPad 16 (xxh64 0 fed)
  | HasherWrapper.Xxh3 fed => fmtHexPad 32 (xxh3_digest128 fed)

/-- Registry identifier list (hasher_wrapper.rs lines 21-26): the strum
serializations of the two enum variants. -/
def variants : List String := ["xxh64", "xxh3"]

/-- Hardcoded default algorithm (hasher_wrapper.rs lines 16-19). -/
def default_hash : String := "xxh64"

/-! ## check_hash (src/hasher_wrapper.rs lines 72-82) -/

/-- Lower-casing of a string character by character.  Rust's to_lowercase is
Unicode-aware; Lean's Char.toLower performs the ASCII mapping, which agrees
with Rust on all characters that can influence membership in the all-ASCII
registry list. -/
def lowerStr (s : String) : String := String.mk (s.data.map Char.toLower)

/-- Split a character list at commas; the empty list yields one empty field,
matching Rust's str split. -/
def splitComma : List Char → List (List Char)
  | [] => [[]]
  | c :: rest =>
    if c = ',' then [] :: splitComma rest
    else
      match splitComma rest with
      | [] => [[c]]
      | g :: gs => (c :: g) :: gs

/-- Membership test against the registry list, as written at
hasher_wrapper.rs line 81. -/
def in_registry (p : String) : Bool := variants.any (fun valid => valid == p)

/-- Normalized comma-separated entries of the input: spaces (the literal
one-character pattern of the replace call at line 75) removed, characters
lower-cased, then split at commas. -/
def normalized_entries (s : String) : List String :=
  (splitComma ((s.data.filter (fun c => c ≠ ' ')).map Char.toLower)).map String.mk

/-- The check_hash function (hasher_wrapper.rs lines 72-82): clean the input,
split at commas and partition into implemented and unimplemented names. -/
def check_hash (s : String) : List String × List String :=
  (normalized_entries s).partition in_registry

/-- Variant of check_hash following the spec's words, for comparison: the
spec says validation normalizes by stripping whitespace (not merely the space
character) before matching. -/
def check_hash_spec (s : String) : List String × List String :=
  ((splitComma ((s.data.filter (fun c => ¬ c.isWhitespace)).map Char.toLower)).map
    String.mk).partition in_registry

/-! ## HashAlgorithm (src/lib.rs lines 28-49) -/

/-- Private algorithm enum of the pipeline (lib.rs lines 28-32). -/
inductive HashAlgorithm : Type where
  | Xxh64
  | Xxh3
deriving DecidableEq, Repr

/-- Parse one identifier (lib.rs lines 42-48): lower-case, then match the two
literal names. -/
def HashAlgorithm.from_string (s : String) : Option HashAlgorithm :=
  if lowerStr s = "xxh64" then some HashAlgorithm.Xxh64
  else if lowerStr s = "xxh3" then some HashAlgorithm.Xxh3
  else none

/-- Fresh hasher for an algorithm, as constructed at lib.rs lines 180-183. -/
def initHasher : HashAlgorithm → HasherWrapper
  | HashAlgorithm.Xxh64 => new_xxh64
  | HashAlgorithm.Xxh3 => new_xxh3

/-! ## calc_hashes (src/lib.rs lines 173-201)

The file is read through an 8192-byte buffer; every chunk read is fed to
every hasher before the next read.  A successful read of a regular file
delivers successive 8192-byte chunks of the content (the final one shorter);
reading zero bytes means end of file and stops the loop.  File open or read
failure is modelled by the content argument being an error. -/

/-- Successive chunks delivered by the 8192-byte read loop. -/
def readChunks (l : List Nat) : List (List Nat) :=
  match l with
  | [] => []
  | x :: xs => ((x :: xs).take 8192) :: readChunks ((x :: xs).drop 8192)
termination_by l.length
decreasing_by simp only [List.length_drop]; simp; omega

/-- Feed chunks to every hasher in turn (the loop at lib.rs lines 188-197);
a zero-length read means end of file and breaks the loop. -/
def feed_chunks (hs : List HasherWrapper) : List (List Nat) → List HasherWrapper
  | [] => hs
  | c :: cs =>
    match c with
    | [] => hs
    | _ :: _ => feed_chunks (hs.map (fun h => h.update c)) cs

/-- The calc_hashes function (lib.rs lines 173-201): open the file (an error
propagates), build one fresh hasher per requested algorithm, feed the chunk
stream to all of them, and finish each in order. -/
def calc_hashes (algs : List HashAlgorithm) (content : Except String (List Nat)) :
    Except String (List String) :=
  match content with
  | Except.error e => Except.error e
  | Except.ok bytes =>
    Except.ok ((feed_chunks (algs.map initHasher) (readChunks bytes)).map HasherWrapper.finish)

/-- Digest a whole byte sequence in one update, then finish. -/
def oneShotDigest (bytes : List Nat) (a : HashAlgorithm) : String :=
  ((initHasher a).update bytes).finish

/-! ## The worker (src/lib.rs lines 138-170)

One worker's view of a run is the sequence of file tasks it receives,
together with what the filesystem answers for each: whether the path still is
a regular file, the content the read loop would deliver (or the I/O error),
and the metadata length query result. -/

/-- One received file task with the filesystem's answers for it. -/
structure TaskInfo : Type where
  path : String
  is_file : Bool
  content : Except String (List Nat)
  meta_len : Except String Nat
deriving Repr

/-- Escaping of one character as in Rust's Debug rendering of a path (quote
and backslash escaped; further escapes of control characters are immaterial
to the claims, which hold up to path quoting). -/
def escape_char (c : Char) : List Char :=
  if c = '"' ∨ c = '\\' then ['\\', c] else [c]

/-- Rendering of a path by the Debug format conversion at lib.rs line 163:
the path, escaped, between double quotes. -/
def debug_quote (p : String) : String :=
  String.mk ('"' :: (p.data.map escape_char).flatten ++ ['"'])

/-- Join a list of strings with a delimiter, the semantics of the Rust slice
join at lib.rs line 150. -/
def join_strings (delim : String) : List String → String
  | [] => ""
  | [x] => x
  | x :: y :: xs => x ++ delim ++ join_strings delim (y :: xs)

/-- The line printed for one successfully processed file (lib.rs line 163). -/
def format_line (label delim : String) (digests : List String) (size : Nat)
    (path : String) : String :=
  label ++ delim ++ join_strings delim digests ++ delim ++ toString size
    ++ delim ++ debug_quote path

/-- Processing of one received task (the loop body at lib.rs lines 145-164),
appending to the accumulated (stdout lines, stderr error reports): a path
that is no longer a regular file is skipped silently; a hashing failure or a
metadata failure appends one error report naming the path and produces no
line; otherwise exactly one formatted line is appended. -/
def work_step (label delim : String) (algs : List HashAlgorithm)
    (acc : List String × List (String × String)) (t : TaskInfo) :
    List String × List (String × String) :=
  if t.is_file = false then acc
  else
    match calc_hashes algs t.content with
    | Except.error e => (acc.1, acc.2 ++ [(t.path, e)])
    | Except.ok digests =>
      match t.meta_len with
      | Except.error e => (acc.1, acc.2 ++ [(t.path, e)])
      | Except.ok size => (acc.1 ++ [format_line label delim digests size t.path], acc.2)

/-- The output of one worker over the sequence of tasks it receives
(work_print, lib.rs lines 138-170): the emitted lines and error reports. -/
def work_print (label delim : String) (algs : List HashAlgorithm)
    (tasks : List TaskInfo) : List String × List (String × String) :=
  tasks.foldl (work_step label delim algs) ([], [])

/-- The error report the loop body produces for a task, if any: the hashing
error if calc_hashes fails, else the metadata error if that query fails. -/
def task_error_msg (algs : List HashAlgorithm) (t : TaskInfo) : Option String :=
  match calc_hashes algs t.content with
  | Except.error e => some e
  | Except.ok _ =>
    match t.meta_len with
    | Except.error e => some e
    | Except.ok _ => none

/-! ## The receive loop's termination behaviour (src/lib.rs lines 144-169)

Once the explorer has returned, the sending half of the channel is dropped and
the channel is closed; from that point is_closed answers true and recv
returns the buffered tasks in order, failing only when the buffer is empty.
Under that condition each loop iteration is deterministic: recv takes the
first buffered task (or fails on an empty buffer), the body runs, and then
the is_closed check at lib.rs lines 166-168 breaks out of the loop. -/

/-- The receive loop run against an already-closed channel holding the given
buffered tasks: the pair of the tasks the worker actually receives before
breaking and the tasks left behind in the buffer. -/
def work_loop_closed {π : Type} : List π → List π × List π
  | [] => ([], [])
  | t :: rest => ([t], rest)

/-! ## run_workers (src/lib.rs lines 98-135) -/

/-- The identifier-list parsing performed by run_workers before spawning
(lib.rs lines 109-112): unparseable identifiers are dropped by filter_map. -/
def parse_hash_algorithms (ids : List String) : List HashAlgorithm :=
  ids.filterMap HashAlgorithm.from_string

/-- The run_workers function (lib.rs lines 98-135), modelled up to the point
where the workers are spawned: the worker count is clamped to a minimum of 1,
the identifier list is parsed, and each spawned worker receives clones of the
label, the delimiter, the parsed algorithm list and the receiver.  The
returned value pairs the function's result (always Ok) with the list of
per-worker configurations. -/
def run_workers {ρ : Type} (label delim : String) (hash_algorithms : List String)
    (receive : ρ) (number_of_workers : Nat) :
    Except String Unit × List (String × String × List HashAlgorithm × ρ) :=
  let n := number_of_workers.max 1
  let algs := parse_hash_algorithms hash_algorithms
  (Except.ok (), (List.range n).map (fun _ => (label, delim, algs, receive)))

/-! ## The explorer (src/lib.rs lines 55-91)

The filesystem is abstracted by what the standard library answers for a path:
whether it exists, the directory listing (or failure to open it), and the
is_dir and is_file predicates.  Note that the Rust Path is_dir and is_file
queries traverse symbolic links and answer for the link target; the concrete
filesystems used below encode that behaviour. -/

/-- Filesystem oracle for a path type. -/
structure FsModel (π : Type) : Type where
  path_exists : π → Bool
  read_dir : π → Option (List π)
  is_dir : π → Bool
  is_file : π → Bool

/-- The stack-driven traversal loop (explore_folder_inner_stacked, lib.rs
lines 70-91), returning the file paths sent to the channel.  The stack list
holds its top first, matching Vec push and pop at the end.  A directory that
cannot be opened is skipped.  Fuel bounds the iteration count so the function
is total; every claim quantifies over or instantiates the fuel. -/
def explore_inner {π : Type} (fs : FsModel π) : Nat → List π → List π
  | 0, _ => []
  | _ + 1, [] => []
  | fuel + 1, dir :: stack =>
    match fs.read_dir dir with
    | none => explore_inner fs fuel stack
    | some entries =>
      let step := entries.foldl
        (fun (acc : List π × List π) p =>
          if fs.is_dir p then (p :: acc.1, acc.2)
          else if fs.is_file p then (acc.1, acc.2 ++ [p])
          else acc)
        (stack, [])
      step.2 ++ explore_inner fs fuel step.1

/-- The explore_path function (lib.rs lines 55-66): a root that does not
exist fails up front with the NotFound error and nothing is ever sent;
otherwise the stacked traversal runs from the root. -/
def explore_path {π : Type} (fs : FsModel π) (fuel : Nat) (root : π) :
    Except String Unit × List π :=
  if fs.path_exists root = false then (Except.error "Path not found", [])
  else (Except.ok (), explore_inner fs fuel [root])

/-! ## Helper lemmas -/

@[simp]
theorem update_nil (h : HasherWrapper) : h.update [] = h := by
  cases h <;> simp [HasherWrapper.update]

theorem update_append (h : HasherWrapper) (a b : List Nat) :
    (h.update a).update b = h.update (a ++ b) := by
  cases h <;> simp [HasherWrapper.update]

theorem foldl_update (cs : List (List Nat)) (h : HasherWrapper) :
    cs.foldl (fun x c => x.update c) h = h.update cs.flatten := by
  induction cs generalizing h with
  | nil => simp
  | cons c cs ih => simp [ih, update_append]

theorem feed_chunks_eq (hs : List HasherWrapper) (cs : List (List Nat))
    (hne : ∀ c ∈ cs, c ≠ []) :
    feed_chunks hs cs = hs.map (fun x => x.update cs.flatten) := by
  induction cs generalizing hs with
  | nil => simp [feed_chunks]
  | cons c cs ih =>
    have hc : c ≠ [] := hne c (by simp)
    cases c with
    | nil => exact absurd rfl hc
    | cons b bs =>
      rw [feed_chunks, ih _ (fun x hx => hne x (by simp [hx])), List.map_map]
      simp [Function.comp, update_append]

theorem readChunks_flatten_bounded (n : Nat) :
    ∀ l : List Nat, l.length ≤ n → (readChunks l).flatten = l := by
  induction n with
  | zero =>
    intro l hl
    rw [List.length_eq_zero.mp (Nat.le_zero.mp hl)]
    simp [readChunks]
  | succ n ih =>
    intro l hl
    cases l with
    | nil => simp [readChunks]
    | cons x xs =>
      rw [readChunks, List.flatten_cons]
      have hlt : ((x :: xs).drop 8192).length ≤ n := by
        simp only [List.length_drop, List.length_cons]
        simp at hl
        omega
      rw [ih _ hlt, List.take_append_drop]

theorem readChunks_flatten (l : List Nat) : (readChunks l).flatten = l :=
  readChunks_flatten_bounded l.length l le_rfl

theorem readChunks_ne_nil_bounded (n : Nat) :
    ∀ l : List Nat, l.length ≤ n → ∀ c ∈ readChunks l, c ≠ [] := by
  induction n with
  | zero =>
    intro l hl
    rw [List.length_eq_zero.mp (Nat.le_zero.mp hl)]
    simp [readChunks]
  | succ n ih =>
    intro l hl
    cases l with
    | nil => simp [readChunks]
    | cons x xs =>
      rw [readChunks]
      intro c hc
      rcases List.mem_cons.mp hc with h1 | h2
      · subst h1; simp
      · have hlt : ((x :: xs).drop 8192).length ≤ n := by
          simp only [List.length_drop, List.length_cons]
          simp at hl
          omega
        exact ih _ hlt c h2

theorem readChunks_ne_nil (l : List Nat) : ∀ c ∈ readChunks l, c ≠ [] :=
  readChunks_ne_nil_bounded l.length l le_rfl

theorem calc_hashes_ok (algs : List HashAlgorithm) (bytes : List Nat) :
    calc_hashes algs (Except.ok bytes) = Except.ok (algs.map (oneShotDigest bytes)) := by
  rw [calc_hashes, feed_chunks_eq _ _ (readChunks_ne_nil bytes), List.map_map,
    readChunks_flatten]
  simp [Function.comp, oneShotDigest]

theorem toHexRev_length_le (k : Nat) : ∀ n : Nat, n < 16 ^ k → (toHexRev n).length ≤ k := by
  induction k with
  | zero =>
    intro n hk
    interval_cases n
    simp [toHexRev]
  | succ k ih =>
    intro n hk
    by_cases h0 : n = 0
    · subst h0; simp [toHexRev]
    · rw [toHexRev, dif_neg h0]
      have : n / 16 < 16 ^ k := by
        rw [Nat.div_lt_iff_lt_mul (by norm_num)]
        calc n < 16 ^ (k + 1) := hk
        _ = 16 ^ k * 16 := by ring
      simpa using ih (n / 16) this

theorem toHexDigits_length_le (k n : Nat) (h1 : 1 ≤ k) (h : n < 16 ^ k) :
    (toHexDigits n).length ≤ k := by
  rw [toHexDigits]
  by_cases h0 : n = 0
  · simp [h0, h1]
  · rw [if_neg h0, List.length_reverse]
    exact toHexRev_length_le k n h

theorem fmtHexPad_length (w n : Nat) (h1 : 1 ≤ w) (h : n < 16 ^ w) :
    (fmtHexPad w n).length = w := by
  rw [fmtHexPad, String.length_mk, List.length_append, List.length_replicate]
  have := toHexDigits_length_le w n h1 h
  omega

theorem hexDigitChar_upper (n : Nat) : isHexUpper (hexDigitChar n) = true := by
  rw [hexDigitChar]
  by_cases ha : n < 10
  · rw [if_pos ha]; interval_cases n <;> decide
  · rw [if_neg ha]
    by_cases hb : n < 16
    · rw [if_pos hb]; interval_cases n <;> decide
    · rw [if_neg hb]; decide

theorem toHexRev_upper_bounded (k : Nat) :
    ∀ n : Nat, n ≤ k → ∀ c ∈ toHexRev n, isHexUpper c = true := by
  induction k with
  | zero =>
    intro n hn
    interval_cases n
    rw [toHexRev]
    simp
  | succ k ih =>
    intro n hn
    by_cases h0 : n = 0
    · subst h0; rw [toHexRev]; simp
    · rw [toHexRev, dif_neg h0]
      intro c hc
      rcases List.mem_cons.mp hc with h1 | h2
      · subst h1; exact hexDigitChar_upper _
      · have : n / 16 ≤ k := by
          have := Nat.div_lt_self (Nat.pos_of_ne_zero h0) (show 1 < 16 by norm_num)
          omega
        exact ih (n / 16) this c h2

theorem toHexRev_upper (n : Nat) : ∀ c ∈ toHexRev n, isHexUpper c = true :=
  toHexRev_upper_bounded n n le_rfl

theorem fmtHexPad_upper (w n : Nat) : (fmtHexPad w n).data.all isHexUpper = true := by
  rw [fmtHexPad]
  rw [List.all_eq_true]
  intro c hc
  rcases List.mem_append.mp hc with h1 | h2
  · rw [List.eq_of_mem_replicate h1]; decide
  · rw [toHexDigits] at h2
    by_cases h0 : n = 0
    · rw [if_pos h0] at h2; simp at h2; subst h2; decide
    · rw [if_neg h0, List.mem_reverse] at h2
      exact toHexRev_upper n c h2

theorem xxh64_lt (seed : Nat) (bs : List Nat) : xxh64 seed bs < M64 :=
  Nat.mod_lt _ (by norm_num [M64])

theorem xxh3_digest128_lt (bs : List Nat) : xxh3_digest128 bs < M128 :=
  Nat.mod_lt _ (by norm_num [M128])

theorem work_step_acc (label delim : String) (algs : List HashAlgorithm)
    (r : List String) (e : List (String × String)) (t : TaskInfo) :
    work_step label delim algs (r, e) t
      = (r ++ (work_step label delim algs ([], []) t).1,
         e ++ (work_step label delim algs ([], []) t).2) := by
  rw [work_step, work_step]
  by_cases hf : t.is_file = false
  · simp [hf]
  · simp only [hf, if_false]
    cases calc_hashes algs t.content with
    | error msg => simp
    | ok digests =>
      cases t.meta_len with
      | error msg => simp
      | ok size => simp

theorem work_print_acc (label delim : String) (algs : List HashAlgorithm)
    (r : List String) (e : List (String × String)) (ts : List TaskInfo) :
    ts.foldl (work_step label delim algs) (r, e)
      = (r ++ (work_print label delim algs ts).1,
         e ++ (work_print label delim algs ts).2) := by
  induction ts generalizing r e with
  | nil => simp [work_print]
  | cons t ts ih =>
    rw [work_print, List.foldl_cons, List.foldl_cons, work_step_acc, ih, ih]
    simp

theorem work_print_append (label delim : String) (algs : List HashAlgorithm)
    (ts1 ts2 : List TaskInfo) :
    work_print label delim algs (ts1 ++ ts2)
      = ((work_print label delim algs ts1).1 ++ (work_print label delim algs ts2).1,
         (work_print label delim algs ts1).2 ++ (work_print label delim algs ts2).2) := by
  rw [work_print, List.foldl_append]
  have h1 : ts1.foldl (work_step label delim algs) (([], []) : List String × List (String × String))
      = work_print label delim algs ts1 := rfl
  rw [h1]
  cases hw : work_print label delim algs ts1 with
  | mk w1 w2 => rw [work_print_acc]

theorem filterMap_eq_filterMap_filter {α β : Type} (f : α → Option β) (l : List α) :
    l.filterMap f = (l.filter (fun x => (f x).isSome)).filterMap f := by
  induction l with
  | nil => simp
  | cons x xs ih =>
    by_cases hx : (f x).isSome
    · rw [List.filter_cons_of_pos (by simpa using hx)]
      rcases Option.isSome_iff_exists.mp hx with ⟨b, hb⟩
      rw [List.filterMap_cons, List.filterMap_cons, hb]
      simp [ih]
    · rw [List.filter_cons_of_neg (by simpa using hx)]
      have : f x = none := Option.not_isSome_iff_eq_none.mp hx
      rw [List.filterMap_cons, this, ih]

theorem from_string_isSome (s : String) :
    (HashAlgorithm.from_string s).isSome = decide (lowerStr s ∈ variants) := by
  rw [HashAlgorithm.from_string]
  by_cases h1 : lowerStr s = "xxh64"
  · simp [h1, variants]
  · by_cases h2 : lowerStr s = "xxh3"
    · simp [h1, h2, variants]
    · simp [h1, h2, variants]

/-! ## Concrete instances used by the claims -/

/-- Filesystem for the symbolic-link scenario: path 0 is the root directory
holding one regular file (path 1) and one symbolic link (path 2) whose target
is a regular file elsewhere.  The Rust Path is_file query used at lib.rs
line 81 traverses symbolic links and answers for the target, so this
filesystem answers true for the link path 2. -/
def fsWithSymlink : FsModel Nat where
  path_exists p := p == 0 || p == 1 || p == 2
  read_dir p := if p == 0 then some [1, 2] else none
  is_dir p := p == 0
  is_file p := p == 1 || p == 2

/-- Filesystem in which no path exists at all. -/
def fsMissingRoot : FsModel Nat :=
  ⟨fun _ => false, fun _ => none, fun _ => false, fun _ => false⟩

/-- A readable one-byte file. -/
def goodTaskA : TaskInfo := ⟨"/data/a", true, Except.ok [97], Except.ok 1⟩

/-- Another readable one-byte file. -/
def goodTaskB : TaskInfo := ⟨"/data/b", true, Except.ok [98], Except.ok 1⟩

/-- A file whose open fails with a permission error. -/
def badTask : TaskInfo := ⟨"/data/bad", true, Except.error "permission denied", Except.ok 1⟩

/-! ## The claims -/

/-- Claim C1: for every byte sequence and every supported algorithm, feeding
the sequence to a fresh accumulator in any partition into chunks yields the
same digest as one single update of the whole sequence, and the 8192-byte
read loop of calc_hashes produces exactly those single-update digests. -/
theorem chunking_never_affects_digest (algs : List HashAlgorithm) (bytes : List Nat)
    (chunks : List (List Nat)) (hjoin : chunks.flatten = bytes) :
    algs.map (fun a => (chunks.foldl (fun h c => h.update c) (initHasher a)).finish)
      = algs.map (oneShotDigest bytes)
    ∧ calc_hashes algs (Except.ok bytes) = Except.ok (algs.map (oneShotDigest bytes)) := by
  constructor
  · subst hjoin
    simp only [foldl_update]
    rfl
  · exact calc_hashes_ok algs bytes

/-- Witness for C1 at a concrete partition of a concrete byte sequence,
covering both registered algorithms. -/
theorem chunking_never_affects_digest_witness :
    ([[1], [2, 3]] : List (List Nat)).flatten = [1, 2, 3]
    ∧ ([HashAlgorithm.Xxh64, HashAlgorithm.Xxh3].map
        (fun a => (([[1], [2, 3]] : List (List Nat)).foldl
          (fun h c => h.update c) (initHasher a)).finish)
        = [HashAlgorithm.Xxh64, HashAlgorithm.Xxh3].map (oneShotDigest [1, 2, 3])
      ∧ calc_hashes [HashAlgorithm.Xxh64, HashAlgorithm.Xxh3] (Except.ok [1, 2, 3])
        = Except.ok ([HashAlgorithm.Xxh64, HashAlgorithm.Xxh3].map
            (oneShotDigest [1, 2, 3]))) :=
  ⟨by decide, chunking_never_affects_digest _ _ _ (by decide)⟩

/-- Claim C2 counterexample: check_hash does not remove all whitespace, only
the space character; on the input below the entry normalizes (under the
spec's whitespace stripping) to a registered identifier, yet check_hash
classifies it as invalid, so the claim as stated fails. -/
theorem check_hash_whitespace_counterexample :
    check_hash "xxh64\t" = ([], ["xxh64\t"])
    ∧ check_hash_spec "xxh64\t" = (["xxh64"], [])
    ∧ check_hash "xxh64\t" ≠ check_hash_spec "xxh64\t" := by decide

/-- Claim C2 (amended): check_hash removes space characters (not all
whitespace), lower-cases, splits at commas, and partitions the entries into
those present in the registry list and the rest, each side preserving input
order (they are order-preserving filters); the two concrete examples of the
claim hold as stated. -/
theorem check_hash_partitions_normalized_entries (s p : String) :
    check_hash s = ((normalized_entries s).filter in_registry,
                    (normalized_entries s).filter (fun q => !(in_registry q)))
    ∧ in_registry p = decide (p ∈ variants)
    ∧ check_hash "xxh64,bogus" = (["xxh64"], ["bogus"])
    ∧ check_hash " XXH64 , bogus " = (["xxh64"], ["bogus"]) := by
  refine ⟨?_, ?_, by decide, by decide⟩
  · rw [check_hash, List.partition_eq_filter_filter]
    rfl
  · by_cases h1 : p = "xxh64"
    · simp [in_registry, variants, h1]
    · by_cases h2 : p = "xxh3"
      · simp [in_registry, variants, h1, h2]
      · simp [in_registry, variants, h1, h2, Ne.symm h1, Ne.symm h2]

/-- Claim C3 evaluation at the failing input: on a tree with exactly one
regular file (path 1) and one symbolic link to a regular file (path 2), the
traversal enqueues both paths — the link is enqueued and followed because the
Rust is_file and is_dir queries traverse links — although the claim (and the
code's own comments) say links are never enqueued. -/
theorem explore_enqueues_symlink :
    explore_path fsWithSymlink 2 0 = (Except.ok (), [1, 2])
    ∧ (explore_path fsWithSymlink 2 0).2 ≠ [1] :=
  ⟨rfl, by decide⟩

/-- Claim C4: a task whose hashing or metadata query fails contributes
exactly one error report naming its path and no output record, and the
records and reports of all tasks before and after it are unaffected — the
worker keeps processing. -/
theorem per_file_failure_isolated (label delim : String) (algs : List HashAlgorithm)
    (pre post : List TaskInfo) (t : TaskInfo) (e : String)
    (hfile : t.is_file = true)
    (hfail : task_error_msg algs t = some e) :
    work_print label delim algs (pre ++ t :: post)
      = ((work_print label delim algs pre).1 ++ (work_print label delim algs post).1,
         (work_print label delim algs pre).2
           ++ (t.path, e) :: (work_print label delim algs post).2) := by
  have hstep : work_step label delim algs ([], []) t = ([], [(t.path, e)]) := by
    rw [task_error_msg] at hfail
    rw [work_step, if_neg (by rw [hfile]; simp)]
    cases hc : calc_hashes algs t.content with
    | error msg =>
      rw [hc] at hfail
      simp only [Option.some.injEq] at hfail
      subst hfail
      simp
    | ok digests =>
      rw [hc] at hfail
      cases hm : t.meta_len with
      | error msg =>
        rw [hm] at hfail
        simp only [Option.some.injEq] at hfail
        subst hfail
        simp
      | ok size =>
        rw [hm] at hfail
        simp at hfail
  have hsplit : pre ++ t :: post = (pre ++ [t]) ++ post := by simp
  rw [hsplit, work_print_append, work_print_append]
  have ht : work_print label delim algs [t] = ([], [(t.path, e)]) := by
    rw [work_print, List.foldl_cons, List.foldl_nil, hstep]
  rw [ht]
  simp

/-- Witness for C4: a permission-denied file between two readable files is
reported once and skipped while both neighbours are still processed. -/
theorem per_file_failure_isolated_witness :
    badTask.is_file = true
    ∧ task_error_msg [HashAlgorithm.Xxh64] badTask = some "permission denied"
    ∧ work_print "L" "," [HashAlgorithm.Xxh64] ([goodTaskA] ++ badTask :: [goodTaskB])
      = ((work_print "L" "," [HashAlgorithm.Xxh64] [goodTaskA]).1
           ++ (work_print "L" "," [HashAlgorithm.Xxh64] [goodTaskB]).1,
         (work_print "L" "," [HashAlgorithm.Xxh64] [goodTaskA]).2
           ++ (badTask.path, "permission denied")
             :: (work_print "L" "," [HashAlgorithm.Xxh64] [goodTaskB]).2) :=
  ⟨rfl, rfl, per_file_failure_isolated "L" "," [HashAlgorithm.Xxh64]
    [goodTaskA] [goodTaskB] badTask "permission denied" rfl rfl⟩

/-- Claim C5: on a root path that does not exist, explore_path returns the
NotFound failure and sends nothing; the inner traversal never starts. -/
theorem explore_missing_root {π : Type} (fs : FsModel π) (fuel : Nat) (root : π)
    (h : fs.path_exists root = false) :
    explore_path fs fuel root = (Except.error "Path not found", []) := by
  rw [explore_path, if_pos h]

/-- Witness for C5 on a concrete filesystem with no existing path. -/
theorem explore_missing_root_witness :
    fsMissingRoot.path_exists 0 = false
    ∧ explore_path fsMissingRoot 3 0 = (Except.error "Path not found", []) :=
  ⟨rfl, explore_missing_root fsMissingRoot 3 0 rfl⟩

/-- Claim C6: a successfully hashed file produces exactly one line of the
form label D digest_1 D ... D digest_n D size D path, digests in requested
order, the size from the metadata query and the path rendered quoted; with
one algorithm and delimiter comma the line is label,digest,size,path up to
path quoting. -/
theorem emitted_line_format (label delim path : String) (algs : List HashAlgorithm)
    (a : HashAlgorithm) (bytes : List Nat) (size : Nat) :
    work_print label delim algs [⟨path, true, Except.ok bytes, Except.ok size⟩]
      = ([label ++ delim ++ join_strings delim (algs.map (oneShotDigest bytes))
            ++ delim ++ toString size ++ delim ++ debug_quote path], [])
    ∧ work_print label "," [a] [⟨path, true, Except.ok bytes, Except.ok size⟩]
      = ([label ++ "," ++ oneShotDigest bytes a ++ "," ++ toString size
            ++ "," ++ debug_quote path], []) := by
  have hgen : ∀ (d : String) (as : List HashAlgorithm),
      work_print label d as [⟨path, true, Except.ok bytes, Except.ok size⟩]
        = ([format_line label d (as.map (oneShotDigest bytes)) size path], []) := by
    intro d as
    rw [work_print, List.foldl_cons, List.foldl_nil, work_step]
    rw [calc_hashes_ok]
    simp
  refine ⟨?_, ?_⟩
  · rw [hgen, format_line]
  · rw [hgen, format_line]
    simp [join_strings]

/-- Claim C7: finish renders the digest as fixed-width uppercase hexadecimal
of the algorithm's native width — exactly 16 characters for the 64-bit xxh64
variant and 32 for the 128-bit xxh3 variant — and the registry exposes the
two algorithms under the stable identifiers xxh64 and xxh3. -/
theorem finish_hex_widths (bs : List Nat) :
    (HasherWrapper.Xxh64 bs).finish.length = 16
    ∧ (HasherWrapper.Xxh3 bs).finish.length = 32
    ∧ (HasherWrapper.Xxh64 bs).finish.data.all isHexUpper = true
    ∧ (HasherWrapper.Xxh3 bs).finish.data.all isHexUpper = true
    ∧ variants = ["xxh64", "xxh3"] := by
  refine ⟨?_, ?_, fmtHexPad_upper 16 _, fmtHexPad_upper 32 _, rfl⟩
  · rw [HasherWrapper.finish]
    refine fmtHexPad_length 16 _ (by norm_num) ?_
    have h := xxh64_lt 0 bs
    rw [show (16 : Nat) ^ 16 = M64 from by norm_num [M64]]
    exact h
  · rw [HasherWrapper.finish]
    refine fmtHexPad_length 32 _ (by norm_num) ?_
    have h := xxh3_digest128_lt bs
    rw [show (16 : Nat) ^ 32 = M128 from by norm_num [M128]]
    exact h

/-- Claim C8 evaluation at the failing scenario: once the channel is closed
with two tasks still buffered, the worker's receive loop consumes only the
first and breaks with the second still buffered — contradicting the claim
that a worker terminates only after every buffered task is consumed. -/
theorem worker_breaks_with_buffered_task :
    work_loop_closed ([1, 2] : List Nat) = ([1], [2])
    ∧ ([2] : List Nat) ≠ [] := by decide

/-- Claim C9: identifiers that from_string does not recognize are removed
before any worker starts (order of the rest preserved), recognition is
case-insensitive membership in the registry, run_workers raises no error for
an unvalidated list, and each record carries one digest per recognized
identifier in order. -/
theorem unrecognized_algorithms_dropped (ids : List String) (s label delim : String)
    (n : Nat) (bytes : List Nat) :
    parse_hash_algorithms ids
      = (ids.filter (fun x => (HashAlgorithm.from_string x).isSome)).filterMap
          HashAlgorithm.from_string
    ∧ (HashAlgorithm.from_string s).isSome = decide (lowerStr s ∈ variants)
    ∧ (run_workers label delim ids () n).1 = Except.ok ()
    ∧ calc_hashes (parse_hash_algorithms ids) (Except.ok bytes)
      = Except.ok ((parse_hash_algorithms ids).map (oneShotDigest bytes))
    ∧ HashAlgorithm.from_string "bogus" = none
    ∧ HashAlgorithm.from_string "XxH64" = some HashAlgorithm.Xxh64 :=
  ⟨filterMap_eq_filterMap_filter _ _, from_string_isSome s, rfl,
    calc_hashes_ok _ _, by decide, by decide⟩

/-- Claim C10 counterexample: with requested identifier list containing only
an unrecognized name, the single spawned worker receives an empty algorithm
list, not the input list unchanged. -/
theorem run_workers_algs_changed_counterexample :
    (run_workers "L" "," ["bogus"] () 0).2 = [("L", ",", ([] : List HashAlgorithm), ())]
    ∧ ([] : List HashAlgorithm).length ≠ (["bogus"] : List String).length := by decide

/-- Claim C10 (amended): run_workers spawns exactly max(n, 1) workers; the
label, delimiter and receiver reach every worker unchanged, and every worker
receives the same algorithm list, namely the requested identifiers parsed
with unrecognized names removed. -/
theorem run_workers_clamped_spawn (label delim : String) (ids : List String)
    {ρ : Type} (r : ρ) (n : Nat) :
    (run_workers label delim ids r n).2
      = List.replicate (n.max 1) (label, delim, parse_hash_algorithms ids, r)
    ∧ (run_workers label delim ids r n).2.length = n.max 1
    ∧ 1 ≤ n.max 1 := by
  refine ⟨?_, ?_, Nat.le_max_right n 1⟩
  · rw [run_workers]
    simp [List.map_const']
  · rw [run_workers]
    simp

end Hashindex
